import Mathlib

/-!
A shallow embedding, over the real numbers, of the geodesy kernels of the
`geomys` Go package: the spheroid parameter object, the geographic point
type, the geocentric/geographic coordinate converter (Fukushima's
Halley-accelerated inverse), and the great-ellipse Direct/Inverse solver
with its Clenshaw-style series evaluator.  Functions that can panic in Go
are embedded as `Except String` values carrying the panic message; pure
functions are embedded as plain functions.  Floating-point arithmetic is
modelled by exact real arithmetic; the external `mym`/`math` helpers
(`SinCosD`, `Hypot`, `Atan2`, `Sq`, `Cb`, `Epsilon`, `SqrtEps`) are
modelled by their mathematical definitions.
-/

open Real

noncomputable section

namespace Geomys

/-- Go: `math.Atan2 y x`, embedded through `Complex.arg` (which has the same
quadrant conventions and the same range `(-π, π]`, and `arg 0 = 0`). -/
def atan2 (y x : ℝ) : ℝ := Complex.arg ⟨x, y⟩

/-- Go: `math.Hypot p q = sqrt (p² + q²)`. -/
def hypot (p q : ℝ) : ℝ := Real.sqrt (p ^ 2 + q ^ 2)

/-- Go: `math.Sincos`: sine and cosine of an angle in radians. -/
def sincos (t : ℝ) : ℝ × ℝ := (Real.sin t, Real.cos t)

/-- Go: `mym.SinCosD`: sine and cosine of an angle given in degrees. -/
def sinCosD (d : ℝ) : ℝ × ℝ := (Real.sin (d * (π / 180)), Real.cos (d * (π / 180)))

/-- Go: `mym.Sq x = x²`. -/
def Sq (x : ℝ) : ℝ := x ^ 2

/-- Go: `mym.Cb x = x³`. -/
def Cb (x : ℝ) : ℝ := x ^ 3

/-- Go: `mym.Epsilon`: the machine epsilon `2⁻⁵²` (as an exact real constant). -/
def Epsilon : ℝ := 1 / 2 ^ 52

/-- Go: `mym.SqrtEps`: the square root of the machine epsilon, `2⁻²⁶`. -/
def SqrtEps : ℝ := 1 / 2 ^ 26

/-- Go: `Point` (point.go): latitude, longitude, altitude. -/
structure Point where
  lat : ℝ
  lon : ℝ
  alt : ℝ

/-- Go: `Geo` (point.go): the validating point constructor.  It panics when
`lat ∉ [-90,90]` or `lon ∉ [-180,180]`; a panic is embedded as
`Except.error` carrying the panic message. -/
def Geo (lat lon alt : ℝ) : Except String Point :=
  if ¬(-90 ≤ lat ∧ lat ≤ 90) then .error "geomys.Geo: lat not in [-90,90]"
  else if ¬(-180 ≤ lon ∧ lon ≤ 180) then .error "geomys.Geo: lon not in [-180,180]"
  else .ok ⟨lat, lon, alt⟩

/-- Go: `Spheroid` (spheroid source file): equatorial axis `a`, flattening `f`. -/
structure Spheroid where
  a : ℝ
  f : ℝ

/-- Go: `NewSpheroid`: validating constructor; panics when `a ∉ [1,10²²]` or
`f ∉ [0,1/150]`; a flattening below `mym.SqrtEps` is snapped to `0`. -/
def NewSpheroid (a f : ℝ) : Except String Spheroid :=
  if ¬(1 ≤ a ∧ a ≤ 1e22) then .error "geomys.NewSpheroid: domain error: `a`"
  else if ¬(0 ≤ f ∧ f ≤ 1 / 150) then .error "geomys.NewSpheroid: domain error: `f`"
  else if f < SqrtEps then .ok ⟨a, 0⟩
  else .ok ⟨a, f⟩

/-- Go: `Spheroid.A`: returns the stored `a` when `a > 1`, else `1`. -/
def Spheroid.A (s : Spheroid) : ℝ := if 1 < s.a then s.a else 1

/-- Go: `Spheroid.F`: the stored (first) flattening. -/
def Spheroid.F (s : Spheroid) : ℝ := s.f

/-- Go: `Spheroid.E2 = f(2-f)`: the first eccentricity squared. -/
def Spheroid.E2 (s : Spheroid) : ℝ := s.F * (2 - s.F)

/-- Go: `Geocentric` (geocen source file): converter bound to a spheroid. -/
structure Geocentric where
  s : Spheroid

/-- Go: `NewGeocentric`. -/
def NewGeocentric (s : Spheroid) : Geocentric := ⟨s⟩

namespace GeocenInv

/-! Stage-by-stage embedding of the body of `Geocentric.Inverse`
(Fukushima's method, two fixed Halley steps).  Each definition is one
assignment of the Go source, as a function of the spheroid and the
geocentric triple `v = (x,y,z)`. -/

/-- Go: `P = Hypot(x,y)/a`. -/
def P (s : Spheroid) (v : ℝ × ℝ × ℝ) : ℝ := hypot v.1 v.2.1 / s.A

/-- Go: `Z = (1-f)·|z|/a`. -/
def Z (s : Spheroid) (v : ℝ × ℝ × ℝ) : ℝ := (1 - s.F) * |v.2.2| / s.A

/-- Go: `S0 = Z`. -/
def S0 (s : Spheroid) (v : ℝ × ℝ × ℝ) : ℝ := Z s v

/-- Go: `C0 = (1-f)·P`. -/
def C0 (s : Spheroid) (v : ℝ × ℝ × ℝ) : ℝ := (1 - s.F) * P s v

/-- Go: `A0 = Hypot(S0,C0)`. -/
def A0 (s : Spheroid) (v : ℝ × ℝ × ℝ) : ℝ := hypot (S0 s v) (C0 s v)

/-- Go: `D0 = Z·A0³ + e²·S0³`. -/
def D0 (s : Spheroid) (v : ℝ × ℝ × ℝ) : ℝ := Z s v * Cb (A0 s v) + s.E2 * Cb (S0 s v)

/-- Go: `F0 = P·A0³ - e²·C0³`. -/
def F0 (s : Spheroid) (v : ℝ × ℝ × ℝ) : ℝ := P s v * Cb (A0 s v) - s.E2 * Cb (C0 s v)

/-- Go: `B0 = 1.5·P·(e²·S0·C0)²·(A0-(1-f))`. -/
def B0 (s : Spheroid) (v : ℝ × ℝ × ℝ) : ℝ :=
  1.5 * P s v * Sq (s.E2 * S0 s v * C0 s v) * (A0 s v - (1 - s.F))

/-- Go: `S1 = D0·F0 - B0·S0`. -/
def S1 (s : Spheroid) (v : ℝ × ℝ × ℝ) : ℝ := D0 s v * F0 s v - B0 s v * S0 s v

/-- Go: `C1 = F0·F0 - B0·C0`. -/
def C1 (s : Spheroid) (v : ℝ × ℝ × ℝ) : ℝ := F0 s v * F0 s v - B0 s v * C0 s v

/-- Go: `A1 = Hypot(S1,C1)`. -/
def A1 (s : Spheroid) (v : ℝ × ℝ × ℝ) : ℝ := hypot (S1 s v) (C1 s v)

/-- Go: `D1 = Z·A1³ + e²·S1³`. -/
def D1 (s : Spheroid) (v : ℝ × ℝ × ℝ) : ℝ := Z s v * Cb (A1 s v) + s.E2 * Cb (S1 s v)

/-- Go: `F1 = P·A1³ - e²·C1³`. -/
def F1 (s : Spheroid) (v : ℝ × ℝ × ℝ) : ℝ := P s v * Cb (A1 s v) - s.E2 * Cb (C1 s v)

/-- Go: `B1 = 1.5·e²·S1·C1·((P·S1-Z·C1)·A1 - e²·S1·C1)`. -/
def B1 (s : Spheroid) (v : ℝ × ℝ × ℝ) : ℝ :=
  1.5 * s.E2 * S1 s v * C1 s v * ((P s v * S1 s v - Z s v * C1 s v) * A1 s v - s.E2 * S1 s v * C1 s v)

/-- Go: `S2 = D1·F1 - B1·S1`. -/
def S2 (s : Spheroid) (v : ℝ × ℝ × ℝ) : ℝ := D1 s v * F1 s v - B1 s v * S1 s v

/-- Go: `C2 = F1·F1 - B1·C1`. -/
def C2 (s : Spheroid) (v : ℝ × ℝ × ℝ) : ℝ := F1 s v * F1 s v - B1 s v * C1 s v

/-- Go: `φ = Atan2(S2,(1-f)·C2)`, negated when `z < 0`. -/
def phi (s : Spheroid) (v : ℝ × ℝ × ℝ) : ℝ :=
  if v.2.2 < 0 then -atan2 (S2 s v) ((1 - s.F) * C2 s v)
  else atan2 (S2 s v) ((1 - s.F) * C2 s v)

/-- Go: `λ = Atan2(y,x)`. -/
def lam (v : ℝ × ℝ × ℝ) : ℝ := atan2 v.2.1 v.1

end GeocenInv

/-- Go: `Geocentric.Inverse`: geocentric to geographic coordinates via two fixed
Halley steps.  Panics (embedded as `Except.error`) when any coordinate has
magnitude above `10²³`; the final point is built by the validating `Geo`
constructor with altitude `0` (the source never computes an altitude:
`//todo add altitude; alt := 0.0`). -/
def Geocentric.Inverse (geocen : Geocentric) (v : ℝ × ℝ × ℝ) : Except String Point :=
  if ¬(|v.1| ≤ 1e23 ∧ |v.2.1| ≤ 1e23 ∧ |v.2.2| ≤ 1e23) then
    .error "geomys.Geocentric.Inverse: domain error: `xyz`"
  else
    Geo (GeocenInv.phi geocen.s v * (180 / π)) (GeocenInv.lam v * (180 / π)) 0

/-- Go: `hat` (geocen.go): normalizes `(y,x)` to a unit sine/cosine pair,
returning `(0,1)` when the norm is below `mym.Epsilon`. -/
def hat (y x : ℝ) : ℝ × ℝ :=
  let norm := hypot y x
  if norm < Epsilon then (0, 1) else (y / norm, x / norm)

/-- Go: `polyval(n, p, s, x)` (geocen.go): Horner evaluation of the `n+1`
coefficients `p[s..s+n]` at `x` (the Go source takes `n : int` and returns
`0` for negative `n`; only non-negative degrees are ever used). -/
def polyval : ℕ → List ℝ → ℕ → ℝ → ℝ
  | 0, p, s, _ => p.getD s 0
  | n + 1, p, s, x => polyval n p s x * x + p.getD (s + n + 1) 0

/-- The flattened coefficient table of `ellA1m1f`. -/
def coeffA1 : List ℝ := [25, 64, 256, 4096, 0, 16384]

/-- Go: `ellA1m1f(eps)`: `t = polyval(m, coeff, 0, eps²)/coeff[m+1]` with
`m = 4`, then `(t+eps)/(1-eps)`. -/
def ellA1m1f (eps : ℝ) : ℝ :=
  let t := polyval 4 coeffA1 0 (eps * eps) / coeffA1.getD 5 0
  (t + eps) / (1 - eps)

/-- The flattened coefficient table of `ellC1f`. -/
def coeffC1 : List ℝ :=
  [19, -64, 384, -1024, 2048, 7, -18, 128, -256, 4096, -9, 72, -128, 6144,
   -11, 96, -160, 16384, 35, -56, 10240, 9, -14, 4096, -33, 14336, -429, 262144]

/-- Go: `ellC1f(eps)`: the 9-entry forward series coefficient vector
(`C[0]` is never assigned, hence `0`); the loop
`for L := 1..8 { m := (8-L)/2; C[L] = eps^L · polyval(m, coeff, oo, eps²)/coeff[oo+m+1]; oo += m+2 }`
unrolled, with the offsets `oo = 0,5,10,14,18,21,24,26` and divisor indices
`4,9,13,17,20,23,25,27`. -/
def ellC1f (eps : ℝ) : List ℝ :=
  let eps2 := eps * eps
  [0,
   eps ^ 1 * polyval 3 coeffC1 0 eps2 / coeffC1.getD 4 0,
   eps ^ 2 * polyval 3 coeffC1 5 eps2 / coeffC1.getD 9 0,
   eps ^ 3 * polyval 2 coeffC1 10 eps2 / coeffC1.getD 13 0,
   eps ^ 4 * polyval 2 coeffC1 14 eps2 / coeffC1.getD 17 0,
   eps ^ 5 * polyval 1 coeffC1 18 eps2 / coeffC1.getD 20 0,
   eps ^ 6 * polyval 1 coeffC1 21 eps2 / coeffC1.getD 23 0,
   eps ^ 7 * polyval 0 coeffC1 24 eps2 / coeffC1.getD 25 0,
   eps ^ 8 * polyval 0 coeffC1 26 eps2 / coeffC1.getD 27 0]

/-- The flattened coefficient table of `ellC1pf`. -/
def coeffC1p : List ℝ :=
  [-4879, 9840, -20736, 36864, 73728, -86171, 120150, -142080, 115200, 368640,
   8703, -7200, 3712, 12288, 1082857, -688608, 258720, 737280, -141115, 41604,
   92160, -2200311, 533134, 860160, 459485, 516096, 109167851, 82575360]

/-- Go: `ellC1pf(eps)`: the 9-entry inverse series coefficient vector, with the
same loop structure as `ellC1f` over its own table. -/
def ellC1pf (eps : ℝ) : List ℝ :=
  let eps2 := eps * eps
  [0,
   eps ^ 1 * polyval 3 coeffC1p 0 eps2 / coeffC1p.getD 4 0,
   eps ^ 2 * polyval 3 coeffC1p 5 eps2 / coeffC1p.getD 9 0,
   eps ^ 3 * polyval 2 coeffC1p 10 eps2 / coeffC1p.getD 13 0,
   eps ^ 4 * polyval 2 coeffC1p 14 eps2 / coeffC1p.getD 17 0,
   eps ^ 5 * polyval 1 coeffC1p 18 eps2 / coeffC1p.getD 20 0,
   eps ^ 6 * polyval 1 coeffC1p 21 eps2 / coeffC1p.getD 23 0,
   eps ^ 7 * polyval 0 coeffC1p 24 eps2 / coeffC1p.getD 25 0,
   eps ^ 8 * polyval 0 coeffC1p 26 eps2 / coeffC1p.getD 27 0]

/-- The loop of `ellSinSeries`: each iteration pops two coefficients and
updates the two Clenshaw accumulators
(`k--; y1 = ar·y0 - y1 + c[k]; k--; y0 = ar·y1 - y0 + c[k]`). -/
def ellLoop (ar : ℝ) (c : List ℝ) : ℕ → ℕ → ℝ → ℝ → ℝ
  | 0, _, y0, _ => y0
  | n + 1, k, y0, y1 =>
    let y1' := ar * y0 - y1 + c.getD (k - 1) 0
    let y0' := ar * y1' - y0 + c.getD (k - 2) 0
    ellLoop ar c n (k - 2) y0' y1'

/-- Go: `ellSinSeries(sin, cos, c)` (geocen.go): backward double-angle
(Clenshaw) summation of `Σ_l c[l]·sin(2lσ)` with
`ar = 2(cos-sin)(cos+sin)`, returning `2·sin·cos·y0`. -/
def ellSinSeries (sin cos : ℝ) (c : List ℝ) : ℝ :=
  let k := c.length
  let n := k - 1
  let ar := 2 * (cos - sin) * (cos + sin)
  let start : ℕ × ℝ := if n % 2 = 1 then (k - 1, c.getD (k - 1) 0) else (k, 0)
  2 * sin * cos * ellLoop ar c (n / 2) start.1 start.2 0

/-- Go: `GreatEllipse` (great-ellipse source file): solver bound to a spheroid. -/
structure GreatEllipse where
  sph : Spheroid

/-- Go: `NewGreatEllipse`. -/
def NewGreatEllipse (sph : Spheroid) : GreatEllipse := ⟨sph⟩

/-- The latitude clamp at the head of `GreatEllipse.Inverse`:
`if lat > 90(1-ε) { lat = 90(1-ε) }; if lat < -90(1-ε) { lat = -90(1-ε) }`
(the two sequential `if`s cannot both fire, so they are an if/else). -/
def clampLat (lat : ℝ) : ℝ :=
  if 90 * (1 - Epsilon) < lat then 90 * (1 - Epsilon)
  else if lat < -(90 * (1 - Epsilon)) then -(90 * (1 - Epsilon))
  else lat

/-- The reduced-latitude sine/cosine pair of `GreatEllipse.Inverse`:
`sβ,cβ := SinCosD(clamped lat); sβ *= (1-f); hat(sβ,cβ)`. -/
def betaPair (s : Spheroid) (lat : ℝ) : ℝ × ℝ :=
  let sc := sinCosD (clampLat lat)
  hat (sc.1 * (1 - s.F)) sc.2

/-- The longitude-difference (and longitude) reduction used by the
great-ellipse solver: `if v ≤ -180 { v += 2·180 } else if v > 180 { v -= 2·180 }`. -/
def reduceLon (d : ℝ) : ℝ :=
  if d ≤ -180 then d + 2 * 180 else if 180 < d then d - 2 * 180 else d

/-- The reduced longitude difference `λ12` of `GreatEllipse.Inverse`. -/
def lam12 (p1 p2 : Point) : ℝ := reduceLon (p2.lon - p1.lon)

/-- Go: `GreatEllipse.Inverse`: the inverse problem (distance and azimuths
between two points), embedded line by line from the Go source.  The
function is total (the Go body cannot panic). -/
def GreatEllipse.Inverse (g : GreatEllipse) (p1 p2 : Point) : ℝ × ℝ × ℝ :=
  let a := g.sph.A
  let f := g.sph.F
  let e2 := g.sph.E2
  let b1 := betaPair g.sph p1.lat
  let b2 := betaPair g.sph p2.lat
  let sc := sinCosD (lam12 p1 p2)
  let sγ1 := b2.2 * sc.1
  let cγ1 := b1.2 * b2.1 - b1.1 * b2.2 * sc.2
  let sγ2 := b1.2 * sc.1
  let cγ2 := -b1.1 * b2.2 + b1.2 * b2.1 * sc.2
  let sσ12 := hypot sγ1 cγ1
  let cσ12 := b1.1 * b2.1 + b1.2 * b2.2 * sc.2
  let g1 := hat sγ1 cγ1
  let g2 := hat sγ2 cγ2
  let cγ0 := hypot g1.2 (g1.1 * b1.1)
  let sσ1 := b1.1
  let cσ1 := if b1.1 = 0 ∧ b1.2 * g1.2 = 0 then 1 else b1.2 * g1.2
  let s1 := hat sσ1 cσ1
  let sσ2 := s1.1 * cσ12 + s1.2 * sσ12
  let cσ2 := s1.2 * cσ12 - s1.1 * sσ12
  let k2 := f * (2 - f) * cγ0 * cγ0
  let eps := k2 / (2 * (1 + Real.sqrt (1 - k2)) - k2)
  let A1v := a * (1 + ellA1m1f eps) * (1 - eps) / (1 + eps)
  let c1v := ellC1f eps
  let s12 := A1v * (atan2 sσ12 cσ12 + (ellSinSeries sσ2 cσ2 c1v - ellSinSeries s1.1 s1.2 c1v))
  let α1 := atan2 g1.1 (g1.2 * Real.sqrt (1 - e2 * b1.2 * b1.2)) * (180 / π)
  let α2 := atan2 g2.1 (g2.2 * Real.sqrt (1 - e2 * b2.2 * b2.2)) * (180 / π)
  (s12, α1, α2)

namespace GrellInv

/-- Go: the unnormalized `sγ1 = cβ2·sλ12` of `GreatEllipse.Inverse`. -/
def sga (b1 b2 sc : ℝ × ℝ) : ℝ := b2.2 * sc.1

/-- Go: the unnormalized `cγ1 = cβ1·sβ2 - sβ1·cβ2·cλ12` of `GreatEllipse.Inverse`. -/
def cga (b1 b2 sc : ℝ × ℝ) : ℝ := b1.2 * b2.1 - b1.1 * b2.2 * sc.2

/-- Go: `sσ12 = Hypot(sγ1, cγ1)` of `GreatEllipse.Inverse`. -/
def ss12 (b1 b2 sc : ℝ × ℝ) : ℝ := hypot (sga b1 b2 sc) (cga b1 b2 sc)

/-- Go: `cσ12 = sβ1·sβ2 + cβ1·cβ2·cλ12` of `GreatEllipse.Inverse`. -/
def cs12 (b1 b2 sc : ℝ × ℝ) : ℝ := b1.1 * b2.1 + b1.2 * b2.2 * sc.2

/-- Go: `sγ1, cγ1 = hat(sγ1, cγ1)` of `GreatEllipse.Inverse`. -/
def g1 (b1 b2 sc : ℝ × ℝ) : ℝ × ℝ := hat (sga b1 b2 sc) (cga b1 b2 sc)

/-- Go: `cγ0 = Hypot(cγ1, sγ1·sβ1)` of `GreatEllipse.Inverse`. -/
def cg0 (b1 b2 sc : ℝ × ℝ) : ℝ :=
  hypot (g1 b1 b2 sc).2 ((g1 b1 b2 sc).1 * b1.1)

/-- Go: `cσ1 = cβ1·cγ1`, replaced by `1` when `sσ1 == 0 && cσ1 == 0`. -/
def cs1 (b1 b2 sc : ℝ × ℝ) : ℝ :=
  if b1.1 = 0 ∧ b1.2 * (g1 b1 b2 sc).2 = 0 then 1 else b1.2 * (g1 b1 b2 sc).2

/-- Go: `sσ1, cσ1 = hat(sσ1, cσ1)` of `GreatEllipse.Inverse`. -/
def sig1 (b1 b2 sc : ℝ × ℝ) : ℝ × ℝ := hat b1.1 (cs1 b1 b2 sc)

/-- Go: `sσ2 = sσ1·cσ12 + cσ1·sσ12` of `GreatEllipse.Inverse`. -/
def ss2 (b1 b2 sc : ℝ × ℝ) : ℝ :=
  (sig1 b1 b2 sc).1 * cs12 b1 b2 sc + (sig1 b1 b2 sc).2 * ss12 b1 b2 sc

/-- Go: `cσ2 = cσ1·cσ12 - sσ1·sσ12` of `GreatEllipse.Inverse`. -/
def cs2 (b1 b2 sc : ℝ × ℝ) : ℝ :=
  (sig1 b1 b2 sc).2 * cs12 b1 b2 sc - (sig1 b1 b2 sc).1 * ss12 b1 b2 sc

/-- Go: `k2 = f·(2-f)·cγ0·cγ0` of `GreatEllipse.Inverse`. -/
def k2 (s : Spheroid) (b1 b2 sc : ℝ × ℝ) : ℝ :=
  s.F * (2 - s.F) * cg0 b1 b2 sc * cg0 b1 b2 sc

/-- Go: `eps = k2/(2(1+√(1-k2))-k2)` of `GreatEllipse.Inverse`. -/
def eps (s : Spheroid) (b1 b2 sc : ℝ × ℝ) : ℝ :=
  k2 s b1 b2 sc / (2 * (1 + Real.sqrt (1 - k2 s b1 b2 sc)) - k2 s b1 b2 sc)

/-- Go: `A1 = a·(1+ellA1m1f(eps))·(1-eps)/(1+eps)` of `GreatEllipse.Inverse`. -/
def A1 (s : Spheroid) (b1 b2 sc : ℝ × ℝ) : ℝ :=
  s.A * (1 + ellA1m1f (eps s b1 b2 sc)) * (1 - eps s b1 b2 sc) / (1 + eps s b1 b2 sc)

/-- Go: the distance `s12` of `GreatEllipse.Inverse` as a function of the
spheroid and the sine/cosine pairs built at the head of the body. -/
def s12 (s : Spheroid) (b1 b2 sc : ℝ × ℝ) : ℝ :=
  A1 s b1 b2 sc *
    (atan2 (ss12 b1 b2 sc) (cs12 b1 b2 sc) +
      (ellSinSeries (ss2 b1 b2 sc) (cs2 b1 b2 sc) (ellC1f (eps s b1 b2 sc)) -
       ellSinSeries (sig1 b1 b2 sc).1 (sig1 b1 b2 sc).2 (ellC1f (eps s b1 b2 sc))))

end GrellInv

namespace GrellDir

/-! Stage-by-stage embedding of the body of `GreatEllipse.Direct`; each
definition is one assignment of the Go source, as a function of the
spheroid, the source point `p1`, the azimuth `α1` and the distance `s12`. -/

/-- Go: `sβ1,cβ1 := SinCosD(lat1); sβ1 *= f1; hat(sβ1,cβ1)` (no clamping in `Direct`). -/
def b1 (s : Spheroid) (p1 : Point) : ℝ × ℝ :=
  hat ((sinCosD p1.lat).1 * (1 - s.F)) (sinCosD p1.lat).2

/-- Go: `sγ1,cγ1 := SinCosD(α1); hat(sγ1·√(1-e²cβ1²), cγ1)`. -/
def g1 (s : Spheroid) (p1 : Point) (α1 : ℝ) : ℝ × ℝ :=
  hat ((sinCosD α1).1 * Real.sqrt (1 - s.E2 * (b1 s p1).2 * (b1 s p1).2)) (sinCosD α1).2

/-- Go: `sγ0 = sγ1·cβ1`. -/
def sγ0 (s : Spheroid) (p1 : Point) (α1 : ℝ) : ℝ := (g1 s p1 α1).1 * (b1 s p1).2

/-- Go: `cγ0 = Hypot(cγ1, sγ1·sβ1)`. -/
def cγ0 (s : Spheroid) (p1 : Point) (α1 : ℝ) : ℝ :=
  hypot (g1 s p1 α1).2 ((g1 s p1 α1).1 * (b1 s p1).1)

/-- Go: `sσ1 = sβ1` and `sl1 = sγ0·sβ1`. -/
def sσ1 (s : Spheroid) (p1 : Point) : ℝ := (b1 s p1).1

/-- Go: `sl1 = sγ0·sβ1`. -/
def sl1 (s : Spheroid) (p1 : Point) (α1 : ℝ) : ℝ := sγ0 s p1 α1 * (b1 s p1).1

/-- Go: `cσ1 = cβ1·cγ1`, replaced by `1` when `sβ1 == 0 && cγ1 == 0`. -/
def cσ1 (s : Spheroid) (p1 : Point) (α1 : ℝ) : ℝ :=
  if (b1 s p1).1 = 0 ∧ (g1 s p1 α1).2 = 0 then 1 else (b1 s p1).2 * (g1 s p1 α1).2

/-- Go: `cl1 = cσ1`. -/
def cl1 (s : Spheroid) (p1 : Point) (α1 : ℝ) : ℝ := cσ1 s p1 α1

/-- Go: `hat(sσ1, cσ1)`. -/
def σ1 (s : Spheroid) (p1 : Point) (α1 : ℝ) : ℝ × ℝ := hat (sσ1 s p1) (cσ1 s p1 α1)

/-- Go: `k² = e²·cγ0²`. -/
def k2 (s : Spheroid) (p1 : Point) (α1 : ℝ) : ℝ := s.E2 * cγ0 s p1 α1 * cγ0 s p1 α1

/-- Go: `eps = k²/(2(1+√(1-k²))-k²)`. -/
def eps (s : Spheroid) (p1 : Point) (α1 : ℝ) : ℝ :=
  k2 s p1 α1 / (2 * (1 + Real.sqrt (1 - k2 s p1 α1)) - k2 s p1 α1)

/-- Go: `A1 = a·(1+ellA1m1f(eps))·(1-eps)/(1+eps)`. -/
def A1 (s : Spheroid) (p1 : Point) (α1 : ℝ) : ℝ :=
  s.A * (1 + ellA1m1f (eps s p1 α1)) * (1 - eps s p1 α1) / (1 + eps s p1 α1)

/-- Go: `B11 = ellSinSeries(sσ1, cσ1, C1a)`. -/
def B11 (s : Spheroid) (p1 : Point) (α1 : ℝ) : ℝ :=
  ellSinSeries (σ1 s p1 α1).1 (σ1 s p1 α1).2 (ellC1f (eps s p1 α1))

/-- Go: `sτ1 = sσ1·cos(B11) + cσ1·sin(B11)`. -/
def sτ1 (s : Spheroid) (p1 : Point) (α1 : ℝ) : ℝ :=
  (σ1 s p1 α1).1 * (sincos (B11 s p1 α1)).2 + (σ1 s p1 α1).2 * (sincos (B11 s p1 α1)).1

/-- Go: `cτ1 = cσ1·cos(B11) - sσ1·sin(B11)`. -/
def cτ1 (s : Spheroid) (p1 : Point) (α1 : ℝ) : ℝ :=
  (σ1 s p1 α1).2 * (sincos (B11 s p1 α1)).2 - (σ1 s p1 α1).1 * (sincos (B11 s p1 α1)).1

/-- Go: `τ12 = s12/A1`. -/
def τ12 (s : Spheroid) (p1 : Point) (α1 s12 : ℝ) : ℝ := s12 / A1 s p1 α1

/-- Go: `B12 = -ellSinSeries(sτ1·c+cτ1·s, cτ1·c-sτ1·s, C1pa)` at `s,c := Sincos(τ12)`. -/
def B12 (s : Spheroid) (p1 : Point) (α1 s12 : ℝ) : ℝ :=
  -ellSinSeries
    (sτ1 s p1 α1 * (sincos (τ12 s p1 α1 s12)).2 + cτ1 s p1 α1 * (sincos (τ12 s p1 α1 s12)).1)
    (cτ1 s p1 α1 * (sincos (τ12 s p1 α1 s12)).2 - sτ1 s p1 α1 * (sincos (τ12 s p1 α1 s12)).1)
    (ellC1pf (eps s p1 α1))

/-- Go: `σ12 = τ12 - (B12 - B11)`. -/
def σ12 (s : Spheroid) (p1 : Point) (α1 s12 : ℝ) : ℝ :=
  τ12 s p1 α1 s12 - (B12 s p1 α1 s12 - B11 s p1 α1)

/-- Go: `sσ2 = sσ1·cos(σ12) + cσ1·sin(σ12)`. -/
def sσ2 (s : Spheroid) (p1 : Point) (α1 s12 : ℝ) : ℝ :=
  (σ1 s p1 α1).1 * (sincos (σ12 s p1 α1 s12)).2 + (σ1 s p1 α1).2 * (sincos (σ12 s p1 α1 s12)).1

/-- Go: `cσ2 = cσ1·cos(σ12) - sσ1·sin(σ12)`. -/
def cσ2 (s : Spheroid) (p1 : Point) (α1 s12 : ℝ) : ℝ :=
  (σ1 s p1 α1).2 * (sincos (σ12 s p1 α1 s12)).2 - (σ1 s p1 α1).1 * (sincos (σ12 s p1 α1 s12)).1

/-- Go: `sβ2 = cγ0·sσ2`. -/
def sβ2 (s : Spheroid) (p1 : Point) (α1 s12 : ℝ) : ℝ := cγ0 s p1 α1 * sσ2 s p1 α1 s12

/-- Go: `cβ2 = Hypot(sγ0, cγ0·cσ2)`. -/
def cβ2 (s : Spheroid) (p1 : Point) (α1 s12 : ℝ) : ℝ :=
  hypot (sγ0 s p1 α1) (cγ0 s p1 α1 * cσ2 s p1 α1 s12)

/-- Go: `sl2 = sγ0·sσ2`. -/
def sl2 (s : Spheroid) (p1 : Point) (α1 s12 : ℝ) : ℝ := sγ0 s p1 α1 * sσ2 s p1 α1 s12

/-- Go: `cl2 = cσ2`. -/
def cl2 (s : Spheroid) (p1 : Point) (α1 s12 : ℝ) : ℝ := cσ2 s p1 α1 s12

/-- Go: `lon12 = Atan2(sl2·cl1-cl2·sl1, cl2·cl1+sl2·sl1)·(180/π)`. -/
def lon12 (s : Spheroid) (p1 : Point) (α1 s12 : ℝ) : ℝ :=
  atan2 (sl2 s p1 α1 s12 * cl1 s p1 α1 - cl2 s p1 α1 s12 * sl1 s p1 α1)
    (cl2 s p1 α1 s12 * cl1 s p1 α1 + sl2 s p1 α1 s12 * sl1 s p1 α1) * (180 / π)

/-- Go: `lon2 = lon1 + lon12`, then reduced to `(-180,180]`. -/
def lon2 (s : Spheroid) (p1 : Point) (α1 s12 : ℝ) : ℝ :=
  reduceLon (p1.lon + lon12 s p1 α1 s12)

/-- Go: `lat2 = Atan2(sβ2, (1-f)·cβ2)·(180/π)`. -/
def lat2 (s : Spheroid) (p1 : Point) (α1 s12 : ℝ) : ℝ :=
  atan2 (sβ2 s p1 α1 s12) ((1 - s.F) * cβ2 s p1 α1 s12) * (180 / π)

/-- Go: `α2 = Atan2(sγ2, cγ2·√(1-e²cβ2²))·(180/π)` with `sγ2 = sγ0`, `cγ2 = cγ0·cσ2`. -/
def α2 (s : Spheroid) (p1 : Point) (α1 s12 : ℝ) : ℝ :=
  atan2 (sγ0 s p1 α1)
    (cγ0 s p1 α1 * cσ2 s p1 α1 s12 *
      Real.sqrt (1 - s.E2 * cβ2 s p1 α1 s12 * cβ2 s p1 α1 s12)) * (180 / π)

end GrellDir

/-- Go: `GreatEllipse.Direct`: the direct problem.  The target point is built
by the validating `Geo` constructor (`p2 = Geo(lat2, lon2, 0.0)`), whose
panic is embedded as `Except.error`. -/
def GreatEllipse.Direct (g : GreatEllipse) (p1 : Point) (α1 s12 : ℝ) :
    Except String (Point × ℝ) :=
  (Geo (GrellDir.lat2 g.sph p1 α1 s12) (GrellDir.lon2 g.sph p1 α1 s12) 0).map
    fun p2 => (p2, GrellDir.α2 g.sph p1 α1 s12)

/-! ### Basic lemmas about the numeric helpers -/

theorem Epsilon_pos : (0 : ℝ) < Epsilon := by norm_num [Epsilon]

theorem hypot_nonneg (p q : ℝ) : 0 ≤ hypot p q := Real.sqrt_nonneg _

theorem hypot_zero : hypot 0 0 = 0 := by
  unfold hypot
  norm_num

theorem hypot_sq_of_nonneg {p q : ℝ} : hypot p q ^ 2 = p ^ 2 + q ^ 2 :=
  Real.sq_sqrt (by positivity)

theorem atan2_zero_zero : atan2 0 0 = 0 := by
  unfold atan2
  have h0 : (⟨0, 0⟩ : ℂ) = 0 := Complex.ext rfl rfl
  rw [h0, Complex.arg_zero]

theorem atan2_zero_one : atan2 0 1 = 0 := by
  unfold atan2
  have h1 : (⟨1, 0⟩ : ℂ) = 1 := Complex.ext rfl rfl
  rw [h1, Complex.arg_one]

/-- The output of `hat` always lies on the unit circle. -/
theorem hat_unit (y x : ℝ) : (hat y x).1 ^ 2 + (hat y x).2 ^ 2 = 1 := by
  simp only [hat]
  split_ifs with h
  · norm_num
  · have hpos : 0 < hypot y x := lt_of_lt_of_le Epsilon_pos (not_lt.mp h)
    have hne : hypot y x ≠ 0 := ne_of_gt hpos
    have hsq := hypot_sq_of_nonneg (p := y) (q := x)
    field_simp
    nlinarith [hsq]

/-- Go: `hat` output in product form, as it appears inside `GreatEllipse.Inverse`. -/
theorem hat_mul_self (y x : ℝ) :
    (hat y x).1 * (hat y x).1 + (hat y x).2 * (hat y x).2 = 1 := by
  have := hat_unit y x
  nlinarith [this]

theorem betaPair_mul_self (s : Spheroid) (lat : ℝ) :
    (betaPair s lat).1 * (betaPair s lat).1 + (betaPair s lat).2 * (betaPair s lat).2 = 1 := by
  unfold betaPair
  exact hat_mul_self _ _

theorem sqrt_four : Real.sqrt 4 = 2 := by
  rw [show (4 : ℝ) = 2 ^ 2 by norm_num, Real.sqrt_sq (by norm_num : (0 : ℝ) ≤ 2)]

/-! ### Claim C4: totality and case contract of the normalizer `hat` -/

/-- C4.  The normalizer `hat(y,x)` is a total function (it is embedded as a
plain function, with no error case): for every input pair it returns
`(y/r, x/r)` with `r = hypot(y,x)` when `r` is at least the fixed threshold
`mym.Epsilon`, and returns exactly `(0,1)` when `r` is below that
threshold. -/
theorem C4_hat_total_contract (y x : ℝ) :
    (Epsilon ≤ hypot y x → hat y x = (y / hypot y x, x / hypot y x)) ∧
    (hypot y x < Epsilon → hat y x = (0, 1)) := by
  constructor
  · intro h
    simp only [hat]
    rw [if_neg (not_lt.mpr h)]
  · intro h
    simp only [hat]
    rw [if_pos h]

/-- Witness for C4 at the concrete inputs `(0,2)` (normal branch) and
`(0,0)` (degenerate branch). -/
theorem C4_hat_total_contract_witness :
    (Epsilon ≤ hypot 0 2 ∧ hat 0 2 = (0 / hypot 0 2, 2 / hypot 0 2)) ∧
    (hypot 0 0 < Epsilon ∧ hat 0 0 = (0, 1)) := by
  have h2 : hypot 0 2 = 2 := by
    unfold hypot
    norm_num [sqrt_four]
  have hle : Epsilon ≤ hypot 0 2 := by rw [h2]; norm_num [Epsilon]
  have hlt : hypot 0 0 < Epsilon := by rw [hypot_zero]; exact Epsilon_pos
  exact ⟨⟨hle, (C4_hat_total_contract 0 2).1 hle⟩, ⟨hlt, (C4_hat_total_contract 0 0).2 hlt⟩⟩

/-! ### Claim C2: coincident points give distance exactly 0 -/

/-- C2.  For every valid point `p`, `GreatEllipse.Inverse(p,p)` returns
distance `s12` equal to exactly `0` (and raises no error: the embedded
`GreatEllipse.Inverse` is a total function, matching the panic-free Go
body); the returned azimuths are left unconstrained (indeterminate). -/
theorem C2_inverse_coincident (g : GreatEllipse) (p : Point)
    (h1 : -90 ≤ p.lat) (h2 : p.lat ≤ 90) (h3 : -180 ≤ p.lon) (h4 : p.lon ≤ 180) :
    (g.Inverse p p).1 = 0 := by
  have hl : lam12 p p = 0 := by
    unfold lam12 reduceLon
    norm_num
  have hsc : sinCosD 0 = ((0 : ℝ), (1 : ℝ)) := by
    unfold sinCosD
    norm_num
  have hcomm : ∀ x y : ℝ, x * y - y * x = 0 := fun x y => by ring
  simp only [GreatEllipse.Inverse, hl, hsc, mul_zero, zero_mul, mul_one, hcomm,
    hypot_zero, betaPair_mul_self, atan2_zero_one, add_zero, zero_add, sub_zero, sub_self]

/-- Witness for C2 at the valid point `(10, 20)` on the WGS1984-like
spheroid `(6378137, 1/298)`. -/
theorem C2_inverse_coincident_witness :
    ((NewGreatEllipse ⟨6378137, 1 / 298⟩).Inverse ⟨10, 20, 0⟩ ⟨10, 20, 0⟩).1 = 0 :=
  C2_inverse_coincident (NewGreatEllipse ⟨6378137, 1 / 298⟩) ⟨10, 20, 0⟩
    (by norm_num) (by norm_num) (by norm_num) (by norm_num)

/-! ### Claim C8: the longitude difference is reduced to `(-180,180]` -/

/-- C8.  In `GreatEllipse.Inverse`, for all input longitudes in
`[-180,180]`, the longitude difference `λ12 = lon2 - lon1` is reduced to
the half-open interval `(-180,180]`; the solver then takes its sine and
cosine through `sinCosD (lam12 p1 p2)` (see the body of
`GreatEllipse.Inverse`). -/
theorem C8_lam12_reduced (p1 p2 : Point)
    (h1 : -180 ≤ p1.lon) (h2 : p1.lon ≤ 180)
    (h3 : -180 ≤ p2.lon) (h4 : p2.lon ≤ 180) :
    -180 < lam12 p1 p2 ∧ lam12 p1 p2 ≤ 180 := by
  unfold lam12 reduceLon
  split_ifs with ha hb
  · constructor <;> linarith
  · constructor <;> linarith
  · constructor <;> [linarith; linarith]

/-- Witness for C8 at the extreme pair `lon1 = -180`, `lon2 = 180`
(raw difference `360`, reduced to `0`). -/
theorem C8_lam12_reduced_witness :
    -180 < lam12 ⟨0, -180, 0⟩ ⟨0, 180, 0⟩ ∧ lam12 ⟨0, -180, 0⟩ ⟨0, 180, 0⟩ ≤ 180 :=
  C8_lam12_reduced ⟨0, -180, 0⟩ ⟨0, 180, 0⟩ (by norm_num) (by norm_num) (by norm_num) (by norm_num)

/-! ### Claim C9: spheroid construction guards and invariant -/

/-- C9.  `NewSpheroid a f` fails with a domain error exactly when `f`
lies outside `[0,1/150]` or `a` lies outside `[1,10²²]`; on success, when
`f` is below `mym.SqrtEps` it is snapped to exactly `0`, and the stored
spheroid satisfies `0 ≤ f ≤ 1/150` and `a ≥ 1`. -/
theorem C9_newSpheroid_guards (a f : ℝ) :
    ((∃ e, NewSpheroid a f = .error e) ↔ ¬(1 ≤ a ∧ a ≤ 1e22) ∨ ¬(0 ≤ f ∧ f ≤ 1 / 150)) ∧
    ∀ sph, NewSpheroid a f = .ok sph →
      sph.a = a ∧ (f < SqrtEps → sph.f = 0) ∧ 0 ≤ sph.f ∧ sph.f ≤ 1 / 150 ∧ 1 ≤ sph.a := by
  unfold NewSpheroid
  split_ifs with h1 h2 h3
  · refine ⟨iff_of_false (by rintro ⟨e, he⟩; cases he)
      (by rintro (h | h); exacts [h h1, h h2]), ?_⟩
    intro sph hok
    injection hok with h
    subst h
    exact ⟨rfl, fun _ => rfl, le_refl 0, by norm_num, h1.1⟩
  · refine ⟨iff_of_false (by rintro ⟨e, he⟩; cases he)
      (by rintro (h | h); exacts [h h1, h h2]), ?_⟩
    intro sph hok
    injection hok with h
    subst h
    exact ⟨rfl, fun hf => absurd hf h3, h2.1, h2.2, h1.1⟩
  · exact ⟨iff_of_true ⟨_, rfl⟩ (Or.inr h2), fun sph h => nomatch h⟩
  · exact ⟨iff_of_true ⟨_, rfl⟩ (Or.inl h1), fun sph h => nomatch h⟩

/-- Witness for C9 at the concrete input `a = 2`, `f = 0` (success with
snapping) showing the invariant of the stored spheroid. -/
theorem C9_newSpheroid_guards_witness :
    NewSpheroid 2 0 = .ok ⟨2, 0⟩ ∧
    ((Spheroid.mk 2 0).a = 2 ∧ ((0:ℝ) < SqrtEps → (Spheroid.mk 2 0).f = 0) ∧
      0 ≤ (Spheroid.mk 2 0).f ∧ (Spheroid.mk 2 0).f ≤ 1 / 150 ∧ 1 ≤ (Spheroid.mk 2 0).a) := by
  have hok : NewSpheroid 2 0 = .ok ⟨2, 0⟩ := by
    unfold NewSpheroid
    rw [if_neg (by norm_num), if_neg (by norm_num), if_pos (by norm_num [SqrtEps])]
  exact ⟨hok, (C9_newSpheroid_guards 2 0).2 ⟨2, 0⟩ hok⟩

/-! ### Claim C5: the Clenshaw recurrence of `ellSinSeries` sums the sine series -/

/-- Unfolding of `ellSinSeries` on a 9-entry coefficient vector: the four
loop iterations of the backward double-angle recurrence. -/
theorem ellSinSeries_nine (s c c0 c1 c2 c3 c4 c5 c6 c7 c8 : ℝ) :
    ellSinSeries s c [c0, c1, c2, c3, c4, c5, c6, c7, c8] =
      2 * s * c *
        (let ar := 2 * (c - s) * (c + s)
         let y1a := ar * 0 - 0 + c8
         let y0a := ar * y1a - 0 + c7
         let y1b := ar * y0a - y1a + c6
         let y0b := ar * y1b - y0a + c5
         let y1c := ar * y0b - y1b + c4
         let y0c := ar * y1c - y0b + c3
         let y1d := ar * y0c - y1c + c2
         let y0d := ar * y1d - y0c + c1
         y0d) := by
  unfold ellSinSeries
  norm_num
  rw [show (4 : ℕ) = 3 + 1 from rfl, ellLoop]
  norm_num
  rw [show (3 : ℕ) = 2 + 1 from rfl, ellLoop]
  norm_num
  rw [show (2 : ℕ) = 1 + 1 from rfl, ellLoop]
  norm_num
  rw [show (1 : ℕ) = 0 + 1 from rfl, ellLoop]
  norm_num [ellLoop]

/-- C5.  For every coefficient vector of length 9 and every sine/cosine
pair `(sin σ, cos σ)` (the pairs with `sin²σ + cos²σ = 1`), the backward
double-angle recurrence implemented by `ellSinSeries` returns the direct
sum `Σ_{l=1..8} c[l]·sin(2lσ)`; moreover its result is
`2·sinσ·cosσ·y0` where `y0` is the final accumulator of the recurrence
run with `ar = 2(cos²σ - sin²σ)`. -/
theorem C5_ellSinSeries_sum (σ c0 c1 c2 c3 c4 c5 c6 c7 c8 : ℝ) :
    ellSinSeries (Real.sin σ) (Real.cos σ) [c0, c1, c2, c3, c4, c5, c6, c7, c8] =
      c1 * Real.sin (2 * σ) + c2 * Real.sin (4 * σ) + c3 * Real.sin (6 * σ) +
      c4 * Real.sin (8 * σ) + c5 * Real.sin (10 * σ) + c6 * Real.sin (12 * σ) +
      c7 * Real.sin (14 * σ) + c8 * Real.sin (16 * σ) ∧
    ellSinSeries (Real.sin σ) (Real.cos σ) [c0, c1, c2, c3, c4, c5, c6, c7, c8] =
      2 * Real.sin σ * Real.cos σ *
        ellLoop (2 * (Real.cos σ ^ 2 - Real.sin σ ^ 2))
          [c0, c1, c2, c3, c4, c5, c6, c7, c8] 4 9 0 0 := by
  constructor
  · have recS : ∀ b : ℝ, Real.sin (b + 2 * σ) =
        2 * Real.cos (2 * σ) * Real.sin b - Real.sin (b - 2 * σ) := by
      intro b
      rw [Real.sin_add, Real.sin_sub]
      ring
    have h4 := recS (2 * σ)
    rw [show (2 : ℝ) * σ + 2 * σ = 4 * σ by ring, show (2 : ℝ) * σ - 2 * σ = 0 by ring,
      Real.sin_zero, sub_zero] at h4
    have h6 := recS (4 * σ)
    rw [show (4 : ℝ) * σ + 2 * σ = 6 * σ by ring, show (4 : ℝ) * σ - 2 * σ = 2 * σ by ring,
      h4] at h6
    have h8 := recS (6 * σ)
    rw [show (6 : ℝ) * σ + 2 * σ = 8 * σ by ring, show (6 : ℝ) * σ - 2 * σ = 4 * σ by ring,
      h6, h4] at h8
    have h10 := recS (8 * σ)
    rw [show (8 : ℝ) * σ + 2 * σ = 10 * σ by ring, show (8 : ℝ) * σ - 2 * σ = 6 * σ by ring,
      h8, h6] at h10
    have h12 := recS (10 * σ)
    rw [show (10 : ℝ) * σ + 2 * σ = 12 * σ by ring, show (10 : ℝ) * σ - 2 * σ = 8 * σ by ring,
      h10, h8] at h12
    have h14 := recS (12 * σ)
    rw [show (12 : ℝ) * σ + 2 * σ = 14 * σ by ring, show (12 : ℝ) * σ - 2 * σ = 10 * σ by ring,
      h12, h10] at h14
    have h16 := recS (14 * σ)
    rw [show (14 : ℝ) * σ + 2 * σ = 16 * σ by ring, show (14 : ℝ) * σ - 2 * σ = 12 * σ by ring,
      h14, h12] at h16
    have hX : Real.cos (2 * σ) = Real.cos σ * Real.cos σ - Real.sin σ * Real.sin σ := by
      rw [show (2 : ℝ) * σ = σ + σ by ring, Real.cos_add]
    have hW : Real.sin (2 * σ) = Real.sin σ * Real.cos σ + Real.cos σ * Real.sin σ := by
      rw [show (2 : ℝ) * σ = σ + σ by ring, Real.sin_add]
    rw [ellSinSeries_nine, h16, h14, h12, h10, h8, h6, h4, hX, hW]
    dsimp only
    ring
  · have h : ellSinSeries (Real.sin σ) (Real.cos σ) [c0, c1, c2, c3, c4, c5, c6, c7, c8] =
        2 * Real.sin σ * Real.cos σ *
          ellLoop (2 * (Real.cos σ - Real.sin σ) * (Real.cos σ + Real.sin σ))
            [c0, c1, c2, c3, c4, c5, c6, c7, c8] 4 9 0 0 := by
      unfold ellSinSeries
      norm_num
    rw [h, show 2 * (Real.cos σ - Real.sin σ) * (Real.cos σ + Real.sin σ) =
      2 * (Real.cos σ ^ 2 - Real.sin σ ^ 2) by ring]

/-! ### Claim C6: the geocentric inverse never computes an altitude -/

/-- Evaluation of `Geocentric.Inverse` at the origin (all Halley stages
vanish), used to witness claims about successful calls. -/
theorem geocen_inverse_origin (s : Spheroid) :
    Geocentric.Inverse ⟨s⟩ (0 : ℝ × ℝ × ℝ) = .ok ⟨0, 0, 0⟩ := by
  have hP : GeocenInv.P s (0 : ℝ × ℝ × ℝ) = 0 := by simp [GeocenInv.P, hypot_zero]
  have hZ : GeocenInv.Z s (0 : ℝ × ℝ × ℝ) = 0 := by simp [GeocenInv.Z]
  have hS0 : GeocenInv.S0 s (0 : ℝ × ℝ × ℝ) = 0 := by simp [GeocenInv.S0, hZ]
  have hC0 : GeocenInv.C0 s (0 : ℝ × ℝ × ℝ) = 0 := by simp [GeocenInv.C0, hP]
  have hA0 : GeocenInv.A0 s (0 : ℝ × ℝ × ℝ) = 0 := by simp [GeocenInv.A0, hS0, hC0, hypot_zero]
  have hD0 : GeocenInv.D0 s (0 : ℝ × ℝ × ℝ) = 0 := by simp [GeocenInv.D0, hZ, hS0, hA0, Cb]
  have hF0 : GeocenInv.F0 s (0 : ℝ × ℝ × ℝ) = 0 := by simp [GeocenInv.F0, hP, hC0, hA0, Cb]
  have hB0 : GeocenInv.B0 s (0 : ℝ × ℝ × ℝ) = 0 := by simp [GeocenInv.B0, hP]
  have hS1 : GeocenInv.S1 s (0 : ℝ × ℝ × ℝ) = 0 := by simp [GeocenInv.S1, hD0, hB0]
  have hC1 : GeocenInv.C1 s (0 : ℝ × ℝ × ℝ) = 0 := by simp [GeocenInv.C1, hF0, hB0]
  have hA1 : GeocenInv.A1 s (0 : ℝ × ℝ × ℝ) = 0 := by simp [GeocenInv.A1, hS1, hC1, hypot_zero]
  have hD1 : GeocenInv.D1 s (0 : ℝ × ℝ × ℝ) = 0 := by simp [GeocenInv.D1, hZ, hS1, hA1, Cb]
  have hF1 : GeocenInv.F1 s (0 : ℝ × ℝ × ℝ) = 0 := by simp [GeocenInv.F1, hP, hC1, hA1, Cb]
  have hB1 : GeocenInv.B1 s (0 : ℝ × ℝ × ℝ) = 0 := by simp [GeocenInv.B1, hS1]
  have hS2 : GeocenInv.S2 s (0 : ℝ × ℝ × ℝ) = 0 := by simp [GeocenInv.S2, hD1, hB1]
  have hC2 : GeocenInv.C2 s (0 : ℝ × ℝ × ℝ) = 0 := by simp [GeocenInv.C2, hF1, hB1]
  have hphi : GeocenInv.phi s (0 : ℝ × ℝ × ℝ) = 0 := by
    simp [GeocenInv.phi, hS2, hC2, atan2_zero_zero]
  have hlam : GeocenInv.lam (0 : ℝ × ℝ × ℝ) = 0 := by
    simp [GeocenInv.lam, atan2_zero_zero]
  unfold Geocentric.Inverse
  rw [if_neg (by norm_num)]
  rw [hphi, hlam, zero_mul]
  unfold Geo
  rw [if_neg (by norm_num), if_neg (by norm_num)]

/-- C6.  `Geocentric.Inverse` never computes an altitude: for every
in-range input, any successfully returned point has altitude exactly 0. -/
theorem C6_inverse_altitude_zero (g : Geocentric) (v : ℝ × ℝ × ℝ) (p : Point)
    (hin : |v.1| ≤ 1e23 ∧ |v.2.1| ≤ 1e23 ∧ |v.2.2| ≤ 1e23)
    (hok : g.Inverse v = .ok p) : p.alt = 0 := by
  unfold Geocentric.Inverse at hok
  rw [if_neg (not_not_intro hin)] at hok
  unfold Geo at hok
  split_ifs at hok
  injection hok with h
  subst h
  rfl

/-! ### Claim C3: the geocentric inverse guard, and an in-range input that
still fails.

At the spheroid `(a,f) = (1, 1/150)` and the in-range input
`(x,y,z) = (15/149, 0, 45/596)` the two Halley steps produce `C2 < 0`,
so the computed latitude lies outside `[-90,90]` and the final `Geo`
constructor raises its own domain error, contradicting the claim that
every in-range call returns normally.  The seed was chosen so that
`(S0,C0) = (3/40, 1/10)` is a Pythagorean pair, making every quantity
rational except the single square root `A1 = √q`. -/

/-- The spheroid of the C3 counterexample. -/
def invSph : Spheroid := ⟨1, 1 / 150⟩

/-- The in-range geocentric input of the C3 counterexample. -/
def invXYZ : ℝ × ℝ × ℝ := (15 / 149, 0, 45 / 596)

/-- The radicand `q = S1² + C1²` of the counterexample (`A1 = √q`). -/
def invQ : ℝ :=
  (40721550948106354532634545017 : ℝ) / 21193127067392409600000000000000000000000000

theorem invSph_A : invSph.A = 1 := by
  unfold invSph Spheroid.A
  norm_num

theorem invSph_F : invSph.F = 1 / 150 := rfl

theorem invSph_E2 : invSph.E2 = 299 / 22500 := by
  unfold Spheroid.E2
  rw [invSph_F]
  norm_num

theorem inv_P : GeocenInv.P invSph invXYZ = 15 / 149 := by
  unfold GeocenInv.P invXYZ hypot
  rw [invSph_A]
  dsimp only
  rw [show ((15 : ℝ) / 149) ^ 2 + (0 : ℝ) ^ 2 = (15 / 149) ^ 2 by norm_num,
    Real.sqrt_sq (by norm_num : (0 : ℝ) ≤ 15 / 149)]
  norm_num

theorem inv_Z : GeocenInv.Z invSph invXYZ = 3 / 40 := by
  unfold GeocenInv.Z invXYZ
  rw [invSph_A, invSph_F]
  dsimp only
  rw [abs_of_nonneg (by norm_num : (0 : ℝ) ≤ 45 / 596)]
  norm_num

theorem inv_S0 : GeocenInv.S0 invSph invXYZ = 3 / 40 := by
  unfold GeocenInv.S0
  exact inv_Z

theorem inv_C0 : GeocenInv.C0 invSph invXYZ = 1 / 10 := by
  unfold GeocenInv.C0
  rw [invSph_F, inv_P]
  norm_num

theorem inv_A0 : GeocenInv.A0 invSph invXYZ = 1 / 8 := by
  unfold GeocenInv.A0 hypot
  rw [inv_S0, inv_C0]
  rw [show ((3 : ℝ) / 40) ^ 2 + ((1 : ℝ) / 10) ^ 2 = (1 / 8) ^ 2 by norm_num,
    Real.sqrt_sq (by norm_num : (0 : ℝ) ≤ 1 / 8)]

theorem inv_D0 : GeocenInv.D0 invSph invXYZ = 48669 / 320000000 := by
  unfold GeocenInv.D0 Cb
  rw [inv_Z, inv_A0, inv_S0, invSph_E2]
  norm_num

theorem inv_F0 : GeocenInv.F0 invSph invXYZ = 9834059 / 53640000000 := by
  unfold GeocenInv.F0 Cb
  rw [inv_P, inv_A0, inv_C0, invSph_E2]
  norm_num

theorem inv_B0 : GeocenInv.B0 invSph invXYZ = -46577921 / 35760000000000000 := by
  unfold GeocenInv.B0 Sq
  rw [inv_P, invSph_E2, inv_S0, inv_C0, inv_A0, invSph_F]
  norm_num

theorem inv_S1 : GeocenInv.S1 invSph invXYZ = 160096874209 / 5721600000000000000 := by
  unfold GeocenInv.S1
  rw [inv_D0, inv_F0, inv_B0, inv_S0]
  norm_num

theorem inv_C1 : GeocenInv.C1 invSph invXYZ = 97083482367847 / 2877249600000000000000 := by
  unfold GeocenInv.C1
  rw [inv_F0, inv_B0, inv_C0]
  norm_num

theorem inv_A1 : GeocenInv.A1 invSph invXYZ = Real.sqrt invQ := by
  unfold GeocenInv.A1 hypot
  rw [inv_S1, inv_C1]
  rw [show ((160096874209 : ℝ) / 5721600000000000000) ^ 2 +
      ((97083482367847 : ℝ) / 2877249600000000000000) ^ 2 = invQ by unfold invQ; norm_num]

theorem invQ_nonneg : (0 : ℝ) ≤ invQ := by unfold invQ; norm_num

/-- The value of the second Halley cosine iterate on the counterexample
input, as a linear expression in `√q`. -/
theorem inv_C2_val : GeocenInv.C2 invSph invXYZ =
    (832394913937191940306813384099815806991868987150307957925954643576758238681217442383811819072812522136961 : ℝ) /
      104477492903253781514012999531925858430906486816663142400000000000000000000000000000000000000000000000000000000000000000000000000000000000000000000 +
    (-10254584790683828021173273109558720975510000705698303810410349541629160140297109 : ℝ) /
      56412479526439904117202785044060628110540800000000000000000000000000000000000000000000000000000000000000000000000 *
      Real.sqrt invQ := by
  have hsq : Real.sqrt invQ ^ 2 = invQ := Real.sq_sqrt invQ_nonneg
  unfold GeocenInv.C2 GeocenInv.F1 GeocenInv.B1 Cb
  rw [inv_P, inv_Z, inv_S1, inv_C1, inv_A1, invSph_E2]
  unfold invQ at hsq ⊢
  linear_combination (((15 : ℝ) / 149) ^ 2 *
      (Real.sqrt ((40721550948106354532634545017 : ℝ) / 21193127067392409600000000000000000000000000) ^ 4 +
        (40721550948106354532634545017 : ℝ) / 21193127067392409600000000000000000000000000 *
          Real.sqrt ((40721550948106354532634545017 : ℝ) / 21193127067392409600000000000000000000000000) ^ 2 +
        ((40721550948106354532634545017 : ℝ) / 21193127067392409600000000000000000000000000) ^ 2) -
      2 * ((15 : ℝ) / 149) *
        ((273594414148653641356900649658305770748372477 : ℝ) /
          535938718160777199298560000000000000000000000000000000000000000000000) *
        Real.sqrt ((40721550948106354532634545017 : ℝ) / 21193127067392409600000000000000000000000000)) * hsq

/-- On the counterexample input the second Halley cosine iterate is
negative. -/
theorem inv_C2_neg : GeocenInv.C2 invSph invXYZ < 0 := by
  have hlb : ((43833 : ℝ) / 10 ^ 12) < Real.sqrt invQ := by
    rw [Real.lt_sqrt (by norm_num)]
    unfold invQ
    norm_num
  rw [inv_C2_val]
  have h2 : (-10254584790683828021173273109558720975510000705698303810410349541629160140297109 : ℝ) /
      56412479526439904117202785044060628110540800000000000000000000000000000000000000000000000000000000000000000000000 *
      Real.sqrt invQ <
      (-10254584790683828021173273109558720975510000705698303810410349541629160140297109 : ℝ) /
      56412479526439904117202785044060628110540800000000000000000000000000000000000000000000000000000000000000000000000 *
      ((43833 : ℝ) / 10 ^ 12) :=
    mul_lt_mul_of_neg_left hlb (by norm_num)
  nlinarith [h2]

/-- Go: `atan2` lies in `(-π, π]` (inherited from `Complex.arg`). -/
theorem atan2_mem_Ioc (y x : ℝ) : -π < atan2 y x ∧ atan2 y x ≤ π :=
  ⟨Complex.neg_pi_lt_arg _, Complex.arg_le_pi _⟩

/-- For a non-negative second argument, `|atan2 y x| ≤ π/2`. -/
theorem abs_atan2_le_half (y x : ℝ) (hx : 0 ≤ x) : |atan2 y x| ≤ π / 2 :=
  Complex.abs_arg_le_pi_div_two_iff.mpr hx

/-- Degree form: a non-negative second argument keeps `atan2·(180/π)` in `[-90, 90]`. -/
theorem atan2_deg_halfpi (y x : ℝ) (hx : 0 ≤ x) :
    -90 ≤ atan2 y x * (180 / π) ∧ atan2 y x * (180 / π) ≤ 90 := by
  have hπ := Real.pi_pos
  have h := abs_le.mp (abs_atan2_le_half y x hx)
  have hpos : (0 : ℝ) < 180 / π := by positivity
  have h90 : π / 2 * (180 / π) = 90 := by
    field_simp
    ring
  constructor
  · have := mul_le_mul_of_nonneg_right h.1 hpos.le
    nlinarith
  · have := mul_le_mul_of_nonneg_right h.2 hpos.le
    nlinarith

/-- Degree form: `atan2·(180/π)` always lies in `(-180, 180]`. -/
theorem atan2_deg_pm180 (y x : ℝ) :
    -180 < atan2 y x * (180 / π) ∧ atan2 y x * (180 / π) ≤ 180 := by
  have hπ := Real.pi_pos
  have h := atan2_mem_Ioc y x
  have hpos : (0 : ℝ) < 180 / π := by positivity
  have h180 : π * (180 / π) = 180 := by
    field_simp
  constructor
  · have := mul_lt_mul_of_pos_right h.1 hpos
    nlinarith
  · have := mul_le_mul_of_nonneg_right h.2 hpos.le
    nlinarith

/-- The longitude reduction maps `(-360, 360]` into `(-180, 180]`. -/
theorem reduceLon_bounds (d : ℝ) (h1 : -360 < d) (h2 : d ≤ 360) :
    -180 < reduceLon d ∧ reduceLon d ≤ 180 := by
  unfold reduceLon
  split_ifs with ha hb
  · constructor <;> linarith
  · constructor <;> linarith
  · constructor <;> linarith

/-- Go: `Geo` succeeds on in-range latitude/longitude. -/
theorem geo_ok (lat lon alt : ℝ) (hl1 : -90 ≤ lat) (hl2 : lat ≤ 90)
    (hn1 : -180 ≤ lon) (hn2 : lon ≤ 180) : Geo lat lon alt = .ok ⟨lat, lon, alt⟩ := by
  unfold Geo
  rw [if_neg (not_not_intro ⟨hl1, hl2⟩), if_neg (not_not_intro ⟨hn1, hn2⟩)]


/-! ### Claim C1: the Forward/Inverse round trip.

Helper lemmas: on any valid spheroid the longitude computed by
`Inverse ∘ Forward` recovers the original longitude exactly modulo 360
degrees, and on a sphere (`f = 0`) the whole call succeeds and recovers
the latitude exactly. -/

/-- C3, counterexample.  The input `(15/149, 0, 45/596)` is within
`[-10²³,10²³]` on every axis, yet `Geocentric.Inverse` on the valid
spheroid `(1, 1/150)` fails: the computed latitude exceeds `90°`, so the
final `Geo` constructor raises a domain error.  This refutes both the
"only if" direction of the claimed equivalence and the claim that every
in-range call returns normally. -/
theorem C3_counterexample :
    (|invXYZ.1| ≤ 1e23 ∧ |invXYZ.2.1| ≤ 1e23 ∧ |invXYZ.2.2| ≤ 1e23) ∧
    ∃ e, Geocentric.Inverse ⟨invSph⟩ invXYZ = .error e := by
  have hin : |invXYZ.1| ≤ 1e23 ∧ |invXYZ.2.1| ≤ 1e23 ∧ |invXYZ.2.2| ≤ 1e23 := by
    unfold invXYZ
    norm_num [abs_le]
  have hre : (1 - invSph.F) * GeocenInv.C2 invSph invXYZ < 0 :=
    mul_neg_of_pos_of_neg (by rw [invSph_F]; norm_num) inv_C2_neg
  have habs : π / 2 <
      |atan2 (GeocenInv.S2 invSph invXYZ) ((1 - invSph.F) * GeocenInv.C2 invSph invXYZ)| := by
    by_contra hcon
    push_neg at hcon
    unfold atan2 at hcon
    have h0 := Complex.abs_arg_le_pi_div_two_iff.mp hcon
    exact absurd h0 (not_le.mpr hre)
  have hphi : GeocenInv.phi invSph invXYZ =
      atan2 (GeocenInv.S2 invSph invXYZ) ((1 - invSph.F) * GeocenInv.C2 invSph invXYZ) := by
    unfold GeocenInv.phi
    rw [if_neg (by norm_num [invXYZ])]
  have hlats : 90 < |GeocenInv.phi invSph invXYZ * (180 / π)| := by
    rw [hphi, abs_mul, abs_of_pos (by positivity : (0 : ℝ) < 180 / π)]
    have hpos : (0 : ℝ) < 180 / π := by positivity
    have h90 : π / 2 * (180 / π) = 90 := by
      field_simp
      ring
    nlinarith [mul_lt_mul_of_pos_right habs hpos]
  refine ⟨hin, "geomys.Geo: lat not in [-90,90]", ?_⟩
  unfold Geocentric.Inverse
  rw [if_neg (not_not_intro hin)]
  dsimp only
  unfold Geo
  rw [if_pos]
  rintro ⟨hc1, hc2⟩
  exact absurd (abs_le.mpr ⟨hc1, hc2⟩) (not_le.mpr hlats)

/-- C3, amended.  `Geocentric.Inverse` raises its own immediate domain
error (before any numerical work, with the message
`geomys.Geocentric.Inverse: domain error: xyz`) exactly when some
coordinate lies outside `[-10²³,10²³]`; an in-range call can still fail,
but only through the range check of the final `Geo` point constructor. -/
theorem C3_guard_error_iff (g : Geocentric) (v : ℝ × ℝ × ℝ) :
    Geocentric.Inverse g v = .error "geomys.Geocentric.Inverse: domain error: `xyz`" ↔
      ¬(|v.1| ≤ 1e23 ∧ |v.2.1| ≤ 1e23 ∧ |v.2.2| ≤ 1e23) := by
  unfold Geocentric.Inverse
  split_ifs with h
  · apply iff_of_false _ (not_not_intro h)
    unfold Geo
    split_ifs <;> simp
  · exact iff_of_true rfl h

/-! ### Claim C10: `GreatEllipse.Direct` cannot hit the `Geo` domain error -/

/-- C10.  For every valid source point, every azimuth and every distance
(on a spheroid with the constructor invariant `0 ≤ f ≤ 1/150`),
`GreatEllipse.Direct` returns a point whose latitude lies in `[-90,90]`
and whose longitude lies in `(-180,180]`; hence the domain-error branch of
the point constructor `Geo` invoked inside `Direct` is unreachable, and
`Direct` never panics. -/
theorem C10_direct_never_panics (g : GreatEllipse) (p1 : Point) (α1 s12 : ℝ)
    (hf0 : 0 ≤ g.sph.F) (hf1 : g.sph.F ≤ 1 / 150)
    (hlat1 : -90 ≤ p1.lat) (hlat2 : p1.lat ≤ 90)
    (hlon1 : -180 ≤ p1.lon) (hlon2 : p1.lon ≤ 180) :
    ∃ p2 α2out, g.Direct p1 α1 s12 = .ok (p2, α2out) ∧
      -90 ≤ p2.lat ∧ p2.lat ≤ 90 ∧ -180 < p2.lon ∧ p2.lon ≤ 180 := by
  have hCnn : (0 : ℝ) ≤ (1 - g.sph.F) * GrellDir.cβ2 g.sph p1 α1 s12 := by
    apply mul_nonneg (by linarith)
    unfold GrellDir.cβ2
    exact hypot_nonneg _ _
  have hlat : -90 ≤ GrellDir.lat2 g.sph p1 α1 s12 ∧ GrellDir.lat2 g.sph p1 α1 s12 ≤ 90 := by
    unfold GrellDir.lat2
    exact atan2_deg_halfpi _ _ hCnn
  have hl12 : -180 < GrellDir.lon12 g.sph p1 α1 s12 ∧ GrellDir.lon12 g.sph p1 α1 s12 ≤ 180 := by
    unfold GrellDir.lon12
    exact atan2_deg_pm180 _ _
  have hlon : -180 < GrellDir.lon2 g.sph p1 α1 s12 ∧ GrellDir.lon2 g.sph p1 α1 s12 ≤ 180 := by
    unfold GrellDir.lon2
    exact reduceLon_bounds _ (by linarith) (by linarith)
  refine ⟨⟨GrellDir.lat2 g.sph p1 α1 s12, GrellDir.lon2 g.sph p1 α1 s12, 0⟩,
    GrellDir.α2 g.sph p1 α1 s12, ?_, hlat.1, hlat.2, hlon.1, hlon.2⟩
  unfold GreatEllipse.Direct
  rw [geo_ok _ _ _ hlat.1 hlat.2 hlon.1.le hlon.2]
  rfl

/-- Witness for C10 on the sphere `(6378137, 0)` at the equatorial point
`(0,0)`, azimuth `90`, distance `1000`. -/
theorem C10_direct_never_panics_witness :
    ∃ p2 α2out,
      (NewGreatEllipse ⟨6378137, 0⟩).Direct ⟨0, 0, 0⟩ 90 1000 = .ok (p2, α2out) ∧
      -90 ≤ p2.lat ∧ p2.lat ≤ 90 ∧ -180 < p2.lon ∧ p2.lon ≤ 180 :=
  C10_direct_never_panics (NewGreatEllipse ⟨6378137, 0⟩) ⟨0, 0, 0⟩ 90 1000
    (by norm_num [NewGreatEllipse, Spheroid.F]) (by norm_num [NewGreatEllipse, Spheroid.F])
    (by norm_num) (by norm_num) (by norm_num) (by norm_num)

/-- Witness for C6 at the in-range input `(0,0,0)` (which returns the
point `(0,0,0)`). -/
theorem C6_inverse_altitude_zero_witness :
    (|(0 : ℝ × ℝ × ℝ).1| ≤ 1e23 ∧ |(0 : ℝ × ℝ × ℝ).2.1| ≤ 1e23 ∧
      |(0 : ℝ × ℝ × ℝ).2.2| ≤ 1e23) ∧ (Point.mk 0 0 0).alt = 0 :=
  ⟨by norm_num,
    C6_inverse_altitude_zero ⟨⟨1, 0⟩⟩ (0 : ℝ × ℝ × ℝ) ⟨0, 0, 0⟩ (by norm_num)
      (geocen_inverse_origin ⟨1, 0⟩)⟩

/-! ### Distance symmetry of the great-ellipse inverse solver (supporting C7) -/

/-- The distance returned by `GreatEllipse.Inverse` is `GrellInv.s12` of the
three head pairs. -/
theorem grell_inverse_dist (g : GreatEllipse) (p1 p2 : Point) :
    (g.Inverse p1 p2).1 =
      GrellInv.s12 g.sph (betaPair g.sph p1.lat) (betaPair g.sph p2.lat)
        (sinCosD (lam12 p1 p2)) := rfl

/-- The pair returned by `sinCosD` lies on the unit circle. -/
theorem sinCosD_unit (d : ℝ) : (sinCosD d).1 ^ 2 + (sinCosD d).2 ^ 2 = 1 := by
  simp [sinCosD, Real.sin_sq_add_cos_sq]

/-- Negating the angle negates the sine and keeps the cosine. -/
theorem sinCosD_neg (d : ℝ) : sinCosD (-d) = (-(sinCosD d).1, (sinCosD d).2) := by
  simp [sinCosD, neg_mul]

/-- The sine component of `sinCosD` vanishes at `180` degrees. -/
theorem sinCosD_180_fst : (sinCosD (180 : ℝ)).1 = 0 := by
  simp only [sinCosD]
  rw [show (180 : ℝ) * (π / 180) = π by ring]
  exact Real.sin_pi

/-- Negating the longitude difference negates the sine and keeps the cosine
of the reduced value (the boundary `±180` both reduce to `180`, where the
sine is `0`). -/
theorem sinCosD_reduceLon_neg (d : ℝ) (hd1 : -360 ≤ d) (hd2 : d ≤ 360) :
    sinCosD (reduceLon (-d)) = (-(sinCosD (reduceLon d)).1, (sinCosD (reduceLon d)).2) := by
  unfold reduceLon
  rcases lt_trichotomy d (-180) with hd | hd | hd
  · rw [if_pos (le_of_lt hd), if_neg (by linarith), if_pos (by linarith)]
    rw [show -d - 2 * 180 = -(d + 2 * 180) by ring, sinCosD_neg]
  · rw [hd]
    norm_num
    rw [Prod.ext_iff]
    refine ⟨?_, rfl⟩
    rw [sinCosD_180_fst]
    norm_num
  · rcases lt_trichotomy 180 d with he | he | he
    · rw [if_pos (show -d ≤ -180 by linarith), if_neg (show ¬d ≤ -180 by linarith),
        if_pos he]
      rw [show -d + 2 * 180 = -(d - 2 * 180) by ring, sinCosD_neg]
    · rw [← he]
      norm_num
      rw [Prod.ext_iff]
      refine ⟨?_, rfl⟩
      rw [sinCosD_180_fst]
      norm_num
    · rw [if_neg (show ¬-d ≤ -180 by linarith), if_neg (show ¬(180 : ℝ) < -d by linarith),
        if_neg (show ¬d ≤ -180 by linarith), if_neg (show ¬(180 : ℝ) < d by linarith)]
      exact sinCosD_neg d

/-- A `hypot` vanishes exactly when both components vanish. -/
theorem hypot_eq_zero_iff (a b : ℝ) : hypot a b = 0 ↔ a = 0 ∧ b = 0 := by
  unfold hypot
  rw [Real.sqrt_eq_zero (by positivity)]
  constructor
  · intro h
    have ha : a ^ 2 = 0 := by nlinarith [sq_nonneg a, sq_nonneg b]
    have hb : b ^ 2 = 0 := by nlinarith [sq_nonneg a, sq_nonneg b]
    exact ⟨pow_eq_zero_iff two_ne_zero |>.mp ha, pow_eq_zero_iff two_ne_zero |>.mp hb⟩
  · rintro ⟨rfl, rfl⟩
    norm_num

/-- Go: the normalizing branch of `hat`. -/
theorem hat_ge (y x : ℝ) (h : Epsilon ≤ hypot y x) :
    hat y x = (y / hypot y x, x / hypot y x) := by
  simp only [hat]
  rw [if_neg (not_lt.mpr h)]

/-- Go: the degenerate branch of `hat`. -/
theorem hat_lt (y x : ℝ) (h : hypot y x < Epsilon) : hat y x = (0, 1) := by
  simp only [hat]
  rw [if_pos h]

/-- Go: `hat(0,1) = (0,1)`. -/
theorem hat_zero_one : hat 0 1 = (0, 1) := by
  have h1 : hypot 0 1 = 1 := by
    unfold hypot
    norm_num
  simp only [hat]
  rw [h1, if_neg (by norm_num [Epsilon])]
  norm_num

/-- Go: `ellSinSeries` is odd under negation of its cosine argument: the
Clenshaw multiplier `ar = 2(cos-sin)(cos+sin)` is invariant and the final
factor `2·sin·cos` changes sign. -/
theorem ellSinSeries_neg_cos (y x : ℝ) (cs : List ℝ) :
    ellSinSeries y (-x) cs = -ellSinSeries y x cs := by
  simp only [ellSinSeries]
  rw [show 2 * (-x - y) * (-x + y) = 2 * (x - y) * (x + y) by ring]
  ring

/-- Exact symmetry of the `GreatEllipse.Inverse` distance under exchange of
the endpoints, at the level of the head sine/cosine pairs, whenever the
unnormalized vertex-azimuth pair `(sγ1, cγ1)` has norm at least
`mym.Epsilon`.  Both call directions then see the same arc, the same
Clairaut constant and the same series corrections. -/
theorem grellInv_s12_symm (s : Spheroid) (x1 y1 x2 y2 u v : ℝ)
    (h1 : x1 ^ 2 + y1 ^ 2 = 1) (h2 : x2 ^ 2 + y2 ^ 2 = 1) (hl : u ^ 2 + v ^ 2 = 1)
    (hnd : Epsilon ≤ hypot (y2 * u) (y1 * x2 - x1 * y2 * v)) :
    GrellInv.s12 s (x1, y1) (x2, y2) (u, v) = GrellInv.s12 s (x2, y2) (x1, y1) (-u, v) := by
  have hε := Epsilon_pos
  set cgaL := y1 * x2 - x1 * y2 * v with hcgaL
  set cgaR := y2 * x1 - x2 * y1 * v with hcgaR
  set csL := x1 * x2 + y1 * y2 * v with hcsL
  set csR := x2 * x1 + y2 * y1 * v with hcsR
  set r := hypot (y2 * u) cgaL with hrdef
  have hr0 : (0 : ℝ) < r := lt_of_lt_of_le hε hnd
  have hrne : r ≠ 0 := ne_of_gt hr0
  have hsqr : r ^ 2 = (y2 * u) ^ 2 + cgaL ^ 2 := by rw [hrdef]; exact hypot_sq_of_nonneg
  -- the swapped call sees the same unnormalized azimuth norm
  have hBnum : (y1 * -u) ^ 2 + cgaR ^ 2 = (y2 * u) ^ 2 + cgaL ^ 2 := by
    rw [hcgaL, hcgaR]
    linear_combination (u ^ 2 - x2 ^ 2 + x2 ^ 2 * v ^ 2) * h1 +
      (-u ^ 2 + x1 ^ 2 - x1 ^ 2 * v ^ 2) * h2 + (x2 ^ 2 - x1 ^ 2) * hl
  have hrR : hypot (y1 * -u) cgaR = r := by
    rw [hrdef]
    unfold hypot
    rw [hBnum]
  -- and the same arc cosine
  have hcsRL : csR = csL := by rw [hcsL, hcsR]; ring
  -- the vertex-azimuth normalizations
  have hg1L : hat (y2 * u) cgaL = (y2 * u / r, cgaL / r) := by
    rw [hat_ge _ _ (hrdef ▸ hnd), ← hrdef]
  have hg1R : hat (y1 * -u) cgaR = (y1 * -u / r, cgaR / r) := by
    rw [hat_ge _ _ (hrR.symm ▸ hnd), hrR]
  -- the Clairaut cosine is direction independent
  have hcg0 : hypot (cgaR / r) (y1 * -u / r * x2) = hypot (cgaL / r) (y2 * u / r * x1) := by
    unfold hypot
    have hnum : cgaR ^ 2 + (y1 * -u * x2) ^ 2 = cgaL ^ 2 + (y2 * u * x1) ^ 2 := by
      rw [hcgaL, hcgaR]
      linear_combination (-x2 ^ 2 + x2 ^ 2 * v ^ 2 + x2 ^ 2 * u ^ 2) * h1 +
        (x1 ^ 2 - x1 ^ 2 * v ^ 2 - x1 ^ 2 * u ^ 2) * h2 + (x2 ^ 2 - x1 ^ 2) * hl
    have expand : ∀ a b c : ℝ, (a / r) ^ 2 + (b / r * c) ^ 2 = (a ^ 2 + (b * c) ^ 2) / r ^ 2 := by
      intro a b c
      field_simp
    rw [expand, expand, hnum]
  -- the σ₁ pre-normalization norms agree
  set cL := y1 * (cgaL / r) with hcL
  set cR := y2 * (cgaR / r) with hcR
  set hL := hypot x1 cL with hhL
  have hDclear : x2 ^ 2 * r ^ 2 + (y2 * cgaR) ^ 2 = x1 ^ 2 * r ^ 2 + (y1 * cgaL) ^ 2 := by
    rw [hcgaL, hcgaR]
    linear_combination (x2 ^ 2 - x1 ^ 2) * hsqr +
      (-x2 ^ 2 + x2 ^ 2 * y2 ^ 2 * v ^ 2 + x2 ^ 4 - y1 ^ 2 * x2 ^ 2 +
        2 * x1 * y1 * x2 * y2 * v - x1 ^ 2 * y2 ^ 2 * v ^ 2) * h1 +
      (x2 ^ 2 * v ^ 2 + x2 ^ 2 * u ^ 2 - 2 * x1 * y1 * x2 * y2 * v + x1 ^ 2 -
        x1 ^ 2 * v ^ 2 - x1 ^ 2 * u ^ 2 + x1 ^ 2 * y2 ^ 2 - x1 ^ 2 * x2 ^ 2) * h2 +
      (x2 ^ 2 - x2 ^ 4 - x1 ^ 2 + x1 ^ 2 * x2 ^ 2) * hl
  have hDnum : x2 ^ 2 + cR ^ 2 = x1 ^ 2 + cL ^ 2 := by
    rw [hcL, hcR]
    have e1 : y2 * (cgaR / r) = y2 * cgaR / r := by ring
    have e2 : y1 * (cgaL / r) = y1 * cgaL / r := by ring
    rw [e1, e2, div_pow, div_pow]
    field_simp
    linear_combination hDclear
  have hhR : hypot x2 cR = hL := by
    rw [hhL]
    unfold hypot
    rw [hDnum]
  -- the special-case conditionals fire exactly when the σ₁ norm vanishes
  have hcondL : (x1 = 0 ∧ y1 * (hat (y2 * u) cgaL).2 = 0) ↔ hL = 0 := by
    rw [hg1L, hhL, hypot_eq_zero_iff, hcL]
  have hcondR : (x2 = 0 ∧ y2 * (hat (y1 * -u) cgaR).2 = 0) ↔ hL = 0 := by
    rw [hg1R, ← hhR, hypot_eq_zero_iff, hcR]
  by_cases hLcase : Epsilon ≤ hL
  · -- nondegenerate σ₁ normalization: full algebraic symmetry
    have hLne : hL ≠ 0 := ne_of_gt (lt_of_lt_of_le hε hLcase)
    have hsig1L :
        hat x1 (if x1 = 0 ∧ y1 * (hat (y2 * u) cgaL).2 = 0 then 1
          else y1 * (hat (y2 * u) cgaL).2) = (x1 / hL, cL / hL) := by
      rw [if_neg (fun hc => hLne (hcondL.mp hc)), hg1L]
      dsimp only
      rw [← hcL, hat_ge _ _ (hhL ▸ hLcase), ← hhL]
    have hsig1R :
        hat x2 (if x2 = 0 ∧ y2 * (hat (y1 * -u) cgaR).2 = 0 then 1
          else y2 * (hat (y1 * -u) cgaR).2) = (x2 / hL, cR / hL) := by
      rw [if_neg (fun hc => hLne (hcondR.mp hc)), hg1R]
      dsimp only
      rw [← hcR, hat_ge _ _ (hhR.symm ▸ hLcase), hhR]
    -- the exact rotation identities between the two directions
    have key1 : x1 * csL + y1 * cgaL = x2 := by
      rw [hcsL, hcgaL]
      linear_combination x2 * h1
    have key3 : x2 * csL + y2 * cgaR = x1 := by
      rw [hcsL, hcgaR]
      linear_combination x1 * h2
    have key2 : y1 * cgaL * csL - x1 * r ^ 2 = -(y2 * cgaR) := by
      rw [hsqr, hcsL, hcgaL, hcgaR]
      linear_combination (y1 * x2 * y2 * v - x1 * y2 ^ 2 * v ^ 2) * h1 +
        (x1 - x1 * v ^ 2 - x1 * u ^ 2) * h2 + (-x1 + x1 * x2 ^ 2) * hl
    have key4 : y2 * cgaR * csL - x2 * r ^ 2 = -(y1 * cgaL) := by
      rw [hsqr, hcsL, hcgaL, hcgaR]
      linear_combination (x2 - x2 * y2 ^ 2 * v ^ 2 - x2 ^ 3) * h1 +
        (-x2 * v ^ 2 - x2 * u ^ 2 + x1 * y1 * y2 * v + x1 ^ 2 * x2) * h2 +
        (-x2 + x2 ^ 3) * hl
    have hcL' : cL = y1 * cgaL / r := by
      rw [hcL]
      ring
    have hcR' : cR = y2 * cgaR / r := by
      rw [hcR]
      ring
    have hclr : cL * r = y1 * cgaL := by
      rw [hcL, mul_assoc, div_mul_cancel₀ _ hrne]
    have hcrr : cR * r = y2 * cgaR := by
      rw [hcR, mul_assoc, div_mul_cancel₀ _ hrne]
    -- the σ₂ pair of one direction is the (sin, -cos) of the σ₁ pair of the other
    have hE1 : x1 / hL * csL + cL / hL * r = x2 / hL := by
      rw [div_mul_eq_mul_div, div_mul_eq_mul_div, div_add_div_same, hclr, key1]
    have hE3 : x2 / hL * csL + cR / hL * r = x1 / hL := by
      rw [div_mul_eq_mul_div, div_mul_eq_mul_div, div_add_div_same, hcrr, key3]
    have hE2 : cL / hL * csL - x1 / hL * r = -(cR / hL) := by
      rw [div_mul_eq_mul_div, div_mul_eq_mul_div, div_sub_div_same, ← neg_div]
      congr 1
      rw [hcL', hcR']
      field_simp
      linear_combination key2
    have hE4 : cR / hL * csL - x2 / hL * r = -(cL / hL) := by
      rw [div_mul_eq_mul_div, div_mul_eq_mul_div, div_sub_div_same, ← neg_div]
      congr 1
      rw [hcL', hcR']
      field_simp
      linear_combination key4
    -- assemble the two `s12` values
    unfold GrellInv.s12 GrellInv.A1 GrellInv.eps GrellInv.k2 GrellInv.cg0 GrellInv.ss2
      GrellInv.cs2 GrellInv.sig1 GrellInv.cs1 GrellInv.g1 GrellInv.ss12 GrellInv.cs12
      GrellInv.sga GrellInv.cga
    dsimp only
    rw [← hcgaL, ← hcgaR, ← hcsL, ← hcsR]
    rw [hsig1L, hsig1R]
    dsimp only
    rw [hg1L, hg1R]
    dsimp only
    rw [← hrdef, hrR, hcsRL, hcg0]
    rw [hE3, hE4]
    have hE1' : x2 / hL = x1 / hL * csL + cL / hL * r := hE1.symm
    have hE2' : cR / hL = -(cL / hL * csL - x1 / hL * r) := by
      linarith [hE2]
    rw [hE1', hE2']
    rw [ellSinSeries_neg_cos, ellSinSeries_neg_cos]
    ring
  · -- degenerate σ₁ normalization: both directions use the `(0,1)` branch
    have hLlt : hL < Epsilon := not_le.mp hLcase
    have hsig1L :
        hat x1 (if x1 = 0 ∧ y1 * (hat (y2 * u) cgaL).2 = 0 then 1
          else y1 * (hat (y2 * u) cgaL).2) = (0, 1) := by
      by_cases hc : x1 = 0 ∧ y1 * (hat (y2 * u) cgaL).2 = 0
      · rw [if_pos hc, hc.1]
        exact hat_zero_one
      · rw [if_neg hc, hg1L]
        dsimp only
        rw [← hcL]
        exact hat_lt _ _ (hhL ▸ hLlt)
    have hsig1R :
        hat x2 (if x2 = 0 ∧ y2 * (hat (y1 * -u) cgaR).2 = 0 then 1
          else y2 * (hat (y1 * -u) cgaR).2) = (0, 1) := by
      by_cases hc : x2 = 0 ∧ y2 * (hat (y1 * -u) cgaR).2 = 0
      · rw [if_pos hc, hc.1]
        exact hat_zero_one
      · rw [if_neg hc, hg1R]
        dsimp only
        rw [← hcR]
        exact hat_lt _ _ (hhR.symm ▸ hLlt)
    unfold GrellInv.s12 GrellInv.A1 GrellInv.eps GrellInv.k2 GrellInv.cg0 GrellInv.ss2
      GrellInv.cs2 GrellInv.sig1 GrellInv.cs1 GrellInv.g1 GrellInv.ss12 GrellInv.cs12
      GrellInv.sga GrellInv.cga
    dsimp only
    rw [← hcgaL, ← hcgaR, ← hcsL, ← hcsR]
    rw [hsig1L, hsig1R]
    dsimp only
    rw [hg1L, hg1R]
    dsimp only
    rw [← hrdef, hrR, hcsRL, hcg0]

/-- Distance symmetry of `GreatEllipse.Inverse` in the nondegenerate regime:
for points with longitudes in `[-180,180]`, if the unnormalized
vertex-azimuth pair `(sγ1, cγ1)` computed by `Inverse(p1,p2)` has norm at
least `mym.Epsilon` (so `hat` takes its normalizing branch), then the
returned distance is exactly symmetric in the two endpoints. -/
theorem grell_inverse_symm_nondegenerate (g : GreatEllipse) (p1 p2 : Point)
    (hlon1 : -180 ≤ p1.lon) (hlon1' : p1.lon ≤ 180)
    (hlon2 : -180 ≤ p2.lon) (hlon2' : p2.lon ≤ 180)
    (hnd : Epsilon ≤ hypot
      ((betaPair g.sph p2.lat).2 * (sinCosD (lam12 p1 p2)).1)
      ((betaPair g.sph p1.lat).2 * (betaPair g.sph p2.lat).1 -
        (betaPair g.sph p1.lat).1 * (betaPair g.sph p2.lat).2 *
          (sinCosD (lam12 p1 p2)).2)) :
    (g.Inverse p1 p2).1 = (g.Inverse p2 p1).1 := by
  rw [grell_inverse_dist, grell_inverse_dist]
  have hflip : sinCosD (lam12 p2 p1) =
      (-(sinCosD (lam12 p1 p2)).1, (sinCosD (lam12 p1 p2)).2) := by
    unfold lam12
    rw [show p1.lon - p2.lon = -(p2.lon - p1.lon) by ring]
    exact sinCosD_reduceLon_neg _ (by linarith) (by linarith)
  rw [hflip]
  have hu1 : (betaPair g.sph p1.lat).1 ^ 2 + (betaPair g.sph p1.lat).2 ^ 2 = 1 := by
    unfold betaPair
    exact hat_unit _ _
  have hu2 : (betaPair g.sph p2.lat).1 ^ 2 + (betaPair g.sph p2.lat).2 ^ 2 = 1 := by
    unfold betaPair
    exact hat_unit _ _
  have hul : (sinCosD (lam12 p1 p2)).1 ^ 2 + (sinCosD (lam12 p1 p2)).2 ^ 2 = 1 :=
    sinCosD_unit _
  have hmain := grellInv_s12_symm g.sph (betaPair g.sph p1.lat).1 (betaPair g.sph p1.lat).2
    (betaPair g.sph p2.lat).1 (betaPair g.sph p2.lat).2
    (sinCosD (lam12 p1 p2)).1 (sinCosD (lam12 p1 p2)).2 hu1 hu2 hul hnd
  simpa only [Prod.mk.eta] using hmain

end Geomys
